import Mathlib

/-!
Verification of the coroot auditor layer (postgres and deployments audits).

The Go source uses float64 values where NaN means "no data"; we embed a float
value as an Option of a rational, with none standing for NaN.  Go comparisons
involving NaN are false, and NaN propagates through arithmetic; the helpers
fgt, fle and fsub reproduce that.  Timestamps (timeseries.Time, int64 Unix
seconds) and durations (timeseries.Duration, int64) are embedded as Int.
A TimeSeries is the ordered list of its samples over the fixed query range.
-/

set_option autoImplicit false

set_option allowUnsafeReducibility true
attribute [semireducible] Rat.add Rat.sub Rat.mul Rat.div Rat.inv

namespace Coroot

abbrev Time := Int

abbrev Sample := Time × Option ℚ

abbrev TimeSeries := List Sample

/-- Go float comparison a > b; any comparison with NaN (none) is false. -/
def fgt : Option ℚ → Option ℚ → Bool
  | some a, some b => decide (b < a)
  | _, _ => false

/-- Go float comparison a <= b; any comparison with NaN (none) is false. -/
def fle : Option ℚ → Option ℚ → Bool
  | some a, some b => decide (a ≤ b)
  | _, _ => false

/-- Go float subtraction a - b; NaN propagates. -/
def fsub : Option ℚ → Option ℚ → Option ℚ
  | some a, some b => some (a - b)
  | _, _ => none

/-- Modelled from the spec: TimeSeries.Last from the timeseries package (not
under src/) returns the value of the latest sample; NaN when the series has
no sample. -/
def lastVal (ts : TimeSeries) : Option ℚ :=
  match ts.getLast? with
  | some s => s.2
  | none => none

/-- Modelled from the spec: TimeSeries.LastNotNull from the timeseries package
(not under src/) returns the latest non-NaN sample of the series, time and
value; when the series has no non-NaN sample it yields the zero time and NaN. -/
def lastNotNull (ts : TimeSeries) : Time × Option ℚ :=
  match (ts.filter (fun s => s.2.isSome)).getLast? with
  | some s => s
  | none => (0, none)

/-- Go conversion from float64 to int64: truncation toward zero. -/
def goTrunc (q : ℚ) : Int := if q < 0 then -(Int.floor (-q)) else Int.floor q

/-- Cluster role of an instance (model.ClusterRole, not under src/);
the spec names the enumeration {primary, replica, unknown}. -/
inductive ClusterRole
  | unknown
  | primary
  | replica
  deriving DecidableEq, Repr

/-- A check with its configured threshold (model.Check, not under src/).
The recording side effects (AddItem, SetValue, Inc) are returned explicitly
by each embedded audit function. -/
structure PgCheck where
  threshold : ℚ
  deriving DecidableEq, Repr

/-- The observable fields of model.TableCell that checkReplicationLag sets:
Value/Unit (abstracted to the raw byte-lag number that FormatBytes renders)
and Tags (each tag abstracted to its qualifier string and the raw duration
that FormatDuration renders). -/
structure TableCellModel where
  value : Option ℚ := none
  tags : List (String × Int) := []
  deriving DecidableEq, Repr

def emptyCell : TableCellModel := {}

/-- The scan loop of checkReplicationLag (postgres.go lines 151-162): iterate
the primary-position samples oldest to newest; skip a sample greater than
vCurr (wraparound); stop at the first remaining sample greater than the
target vCurr - last; otherwise record its time as tPast. -/
def scanLsn (vCurr vTgt : Option ℚ) : TimeSeries → Time → Time
  | [], tPast => tPast
  | (t, v) :: rest, tPast =>
    if fgt v vCurr then scanLsn vCurr vTgt rest tPast
    else if fgt v vTgt then tPast
    else scanLsn vCurr vTgt rest t

/-- The time lag computed by checkReplicationLag on its emitting path:
tCurr - tPast, with tPast produced by the scan starting from Time(0). -/
def lagTimeOf (p : TimeSeries) (l : ℚ) : Int :=
  (lastNotNull p).1 - scanLsn (lastNotNull p).2 (fsub (lastNotNull p).2 (some l)) p 0

/-- The emitting path of checkReplicationLag (postgres.go lines 150-177),
reached once the three early returns are passed: compute tPast by the scan,
derive the time lag, record the instance when the lag exceeds the truncated
threshold, and build the cell; the time tag is rendered only for a positive
lag and carries the greater-than qualifier exactly when tPast is the zero
time. -/
def emitLag (p : TimeSeries) (l : ℚ) (check : PgCheck) : TableCellModel × Bool :=
  let tPast := scanLsn (lastNotNull p).2 (fsub (lastNotNull p).2 (some l)) p 0
  let lagTime := (lastNotNull p).1 - tPast
  let gtw := if tPast = 0 then ">" else ""
  ({ value := some l,
     tags := if 0 < lagTime then [(gtw, lagTime)] else [] },
   decide (goTrunc check.threshold < lagTime))

/-- checkReplicationLag (postgres.go lines 137-178).  The first component is
the table cell; the second tells whether the instance was recorded on the
replication check (check.AddItem). -/
def checkReplicationLag (p lag : TimeSeries) (role : ClusterRole) (check : PgCheck) :
    TableCellModel × Bool :=
  if p = [] then (emptyCell, false)
  else if role ≠ ClusterRole.replica then (emptyCell, false)
  else
    match lastVal lag with
    | none => (emptyCell, false)
    | some l => emitLag p l check

/-- Modelled from the spec: timeseries.Aggregate2 (not under src/) combines
two series sharing one timeline pointwise. -/
def aggregate2 (f : Option ℚ → Option ℚ → Option ℚ) (a b : TimeSeries) : TimeSeries :=
  List.zipWith (fun s1 s2 => (s1.1, f s1.2 s2.2)) a b

/-- The pointwise combinator of pgReplicationLag (postgres.go lines 183-189):
primary - replay, floored at zero; NaN when either side is NaN. -/
def lagPointwise (primary replay : Option ℚ) : Option ℚ :=
  let res := fsub primary replay
  if fgt (some 0) res then some 0 else res

/-- pgReplicationLag (postgres.go lines 180-190). -/
def pgReplicationLag (primaryLsn replayLsn : TimeSeries) : TimeSeries :=
  aggregate2 lagPointwise primaryLsn replayLsn

/-- The qualifying run of the scan: the non-skipped samples (value not above
vCurr) up to, not including, the first one whose value is above the target.
The last element of this run is the sample whose time the scan returns. -/
def tracked (vCurr vTgt : Option ℚ) (samples : TimeSeries) : TimeSeries :=
  (samples.filter (fun s => !fgt s.2 vCurr)).takeWhile (fun s => !fgt s.2 vTgt)

/-- Modelled from the spec: the NaN-aware sum combinator timeseries.NanSum
(not under src/): at each instant sum the non-NaN inputs; NaN only when no
input is defined there. -/
def nansum : Option ℚ → Option ℚ → Option ℚ
  | some a, some b => some (a + b)
  | some a, none => some a
  | none, some b => some b
  | none, none => none

/-- Modelled from the spec: pointwise NanSum of two series sharing one
timeline; a nil series (no samples) contributes nothing. -/
def nanSumTS (a b : TimeSeries) : TimeSeries :=
  if a.isEmpty then b
  else if b.isEmpty then a
  else List.zipWith (fun x y => (x.1, nansum x.2 y.2)) a b

/-- Modelled from the spec: timeseries.NewAggregate(NanSum) holding a list of
added series, finalized by Get; with no (real) input the result is nil. -/
def nanSumList (l : List TimeSeries) : TimeSeries := l.foldl nanSumTS []

/-- The key of instance.Postgres.Connections: raw connection state and wait
event type (model package, shape fixed by its use in postgres.go). -/
structure ConnKey where
  state : String
  waitEventType : String
  deriving DecidableEq, Repr

def pgActiveLockedState : String := "active (locked)"

/-- The canonical bucket of one connection key (postgres.go lines 199-202):
(state active, wait event type Lock) goes to the locked bucket, every other
key keeps its raw state. -/
def canonicalState (k : ConnKey) : String :=
  if k.state = "active" ∧ k.waitEventType = "Lock" then pgActiveLockedState
  else k.state

/-- The connectionByState map: each canonical bucket holds the list of series
added to its NanSum aggregate. -/
abbrev Buckets := List (String × List TimeSeries)

/-- Lookup of a bucket; a missing key is an aggregate with no series. -/
def bucketGet : Buckets → String → List TimeSeries
  | [], _ => []
  | (k, vs) :: rest, s => if k = s then vs else bucketGet rest s

/-- Adding one series to the aggregate of a bucket, creating the bucket when
absent (the Go map lookup-or-create followed by Aggregate.Add). -/
def bucketAdd : Buckets → String → TimeSeries → Buckets
  | [], s, v => [(s, [v])]
  | (k, vs) :: rest, s, v =>
    if k = s then (k, vs ++ [v]) :: rest
    else (k, vs) :: bucketAdd rest s v

/-- Replacing the aggregate of a bucket (the Go map assignment
connectionByState[reserved] = NewAggregate(NanSum)). -/
def bucketSet : Buckets → String → List TimeSeries → Buckets
  | [], s, vs => [(s, vs)]
  | (k, ws) :: rest, s, vs =>
    if k = s then (s, vs) :: rest
    else (k, ws) :: bucketSet rest s vs

/-- The bucketing effect of the loop of pgConnections (postgres.go lines
195-209): every connection series is added to the aggregate of its canonical
bucket.  The Go loop also accumulates the running total; that accumulation is
independent of the bucketing and is modelled by connTotal below. -/
def buildBuckets (conns : List (ConnKey × TimeSeries)) : Buckets :=
  conns.foldl (fun m kv => bucketAdd m (canonicalState kv.1) kv.2) []

/-- The running total accumulated by the loop of pgConnections (postgres.go
lines 196-198): the sum of the last values of the connection series, a NaN
last value contributing nothing. -/
def connTotal (conns : List (ConnKey × TimeSeries)) : ℚ :=
  conns.foldl
    (fun t kv => match lastVal kv.2 with | some x => t + x | none => t) 0

/-- The inputs of pgConnections taken from instance.Postgres: the connection
series by (state, wait event type) key, and the setting series by name.  Go
map iteration order is unspecified; the list order stands for one such
order, and every bucketing and summing result proved below is stated for all
orders. -/
structure PgInstance where
  connections : List (ConnKey × TimeSeries)
  settings : List (String × TimeSeries)

/-- Lookup of a setting series: instance.Postgres.Settings[name].Samples; an
absent setting yields the nil series (the Go zero value). -/
def settingLookup : List (String × TimeSeries) → String → TimeSeries
  | [], _ => []
  | (k, v) :: rest, s => if k = s then v else settingLookup rest s

def getSetting (inst : PgInstance) (name : String) : TimeSeries :=
  settingLookup inst.settings name

/-- The two reserved-connections setting names iterated by postgres.go line
212. -/
def reservedSettingNames : List String :=
  ["superuser_reserved_connections", "rds.rds_superuser_reserved_connections"]

/-- The observable outcome of pgConnections: the final connectionByState
buckets (each chart series is the NanSum of its bucket), the total used for
the saturation comparison, and whether the instance was recorded on the
connections check. -/
structure PgConnResult where
  buckets : Buckets
  total : ℚ
  recorded : Bool

/-- pgConnections (postgres.go lines 192-253), restricted to its bucketing,
total and check outcome: bucket every connection series by canonical state
while summing last values into total; replace the reserved bucket with a
fresh aggregate and add the two reserved-connections setting series to it,
their last values joining total; then record the instance when
max_connections and total are both positive and total/max*100 exceeds the
threshold. -/
def pgConnections (inst : PgInstance) (check : PgCheck) : PgConnResult :=
  let m1 := buildBuckets inst.connections
  let t1 := connTotal inst.connections
  let m2 := bucketSet m1 "reserved" []
  let p3 := reservedSettingNames.foldl
    (fun (p : Buckets × ℚ) (name : String) =>
      let v := getSetting inst name
      (bucketAdd p.1 "reserved" v,
       match lastVal v with | some x => p.2 + x | none => p.2))
    (m2, t1)
  let recorded :=
    match lastVal (getSetting inst "max_connections") with
    | some mx =>
        decide (0 < mx) && decide (0 < p3.2) &&
          decide (check.threshold < p3.2 / mx * 100)
    | none => false
  ⟨p3.1, p3.2, recorded⟩

/-- The deployment states distinguished by the deployments audit
(model.ApplicationDeploymentState, not under src/; the constructor set is
fixed by the switch in the audit). -/
inductive DeploymentState
  | summary
  | deployed
  | stuck
  | inProgress
  | cancelled
  deriving DecidableEq, Repr

/-- One entry of model.CalcApplicationDeploymentStatuses as consumed by the
deployments audit: its state and the start time of its deployment. -/
structure DeploymentStatus where
  state : DeploymentState
  startedAt : Time
  deriving DecidableEq, Repr

/-- One iteration of the deployments loop (part_000 lines 19-52), restricted
to its effect on the DeploymentStatus check value: only the stuck branch
touches the check, calling SetValue(now - StartedAt); SetValue is modelled
from the spec as a last-write-wins scalar. -/
def deploymentStep (now : Time) (acc : Option ℚ) (ds : DeploymentStatus) : Option ℚ :=
  if ds.state = DeploymentState.stuck then some ((now - ds.startedAt : Int) : ℚ)
  else acc

/-- The deployments audit pass over the statuses (part_000 lines 19-52):
the loop iterates i from the highest index down to 0, so it processes the
reversed list; the result is the final value held by the DeploymentStatus
check. -/
def deploymentsPass (now : Time) (statuses : List DeploymentStatus) : Option ℚ :=
  statuses.reverse.foldl (deploymentStep now) none

/-- Test fixture: one active connection whose last value is negative, and a
negative max_connections setting. -/
def pgInstanceNegative : PgInstance :=
  ⟨[(⟨"active", ""⟩, [((0 : Int), some (-10 : ℚ))])],
   [("max_connections", [((0 : Int), some (-5 : ℚ))])]⟩

/-- Test fixture: one idle connection and no settings at all, so neither
reserved-connections setting is present. -/
def pgInstanceNoReserved : PgInstance :=
  ⟨[(⟨"idle", ""⟩, [((0 : Int), some (1 : ℚ))])], []⟩

/-- Test fixture: connection total 95 with max_connections 100 (the
saturation scenario of the spec). -/
def pgInstanceSaturated : PgInstance :=
  ⟨[(⟨"active", ""⟩, [((0 : Int), some (95 : ℚ))])],
   [("max_connections", [((0 : Int), some (100 : ℚ))])]⟩

/-- Test fixture: one locked active connection and one plain active
connection. -/
def pgConnsFixture : List (ConnKey × TimeSeries) :=
  [(⟨"active", "Lock"⟩, [((0 : Int), some (2 : ℚ))]),
   (⟨"active", ""⟩, [((0 : Int), some (3 : ℚ))])]

/-! ### The scan of checkReplicationLag -/

/-- The scan loop returns the time of the last sample of the qualifying run
tracked (skipping samples above vCurr, stopping at the first remaining sample
above the target), falling back to the initial value. -/
theorem scanLsn_eq_tracked (vCurr vTgt : Option ℚ) (samples : TimeSeries) :
    ∀ t0 : Time,
      scanLsn vCurr vTgt samples t0 =
        (((tracked vCurr vTgt samples).getLast?).map Prod.fst).getD t0 := by
  induction samples with
  | nil => intro t0; simp [scanLsn, tracked]
  | cons s rest ih =>
    intro t0
    obtain ⟨t, v⟩ := s
    cases h1 : fgt v vCurr with
    | true =>
      have e1 : scanLsn vCurr vTgt ((t, v) :: rest) t0 = scanLsn vCurr vTgt rest t0 := by
        simp [scanLsn, h1]
      have e2 : tracked vCurr vTgt ((t, v) :: rest) = tracked vCurr vTgt rest := by
        simp [tracked, List.filter_cons, h1]
      rw [e1, e2, ih t0]
    | false =>
      cases h2 : fgt v vTgt with
      | true =>
        have e1 : scanLsn vCurr vTgt ((t, v) :: rest) t0 = t0 := by
          simp [scanLsn, h1, h2]
        have e2 : tracked vCurr vTgt ((t, v) :: rest) = [] := by
          simp [tracked, List.filter_cons, h1, List.takeWhile, h2]
        rw [e1, e2]
        rfl
      | false =>
        have e1 : scanLsn vCurr vTgt ((t, v) :: rest) t0 = scanLsn vCurr vTgt rest t := by
          simp [scanLsn, h1, h2]
        have e2 : tracked vCurr vTgt ((t, v) :: rest) = (t, v) :: tracked vCurr vTgt rest := by
          simp [tracked, List.filter_cons, h1, List.takeWhile, h2]
        rw [e1, e2, ih t]
        cases htr : tracked vCurr vTgt rest with
        | nil => simp
        | cons x xs =>
          rw [List.getLast?_cons_cons]
          obtain ⟨y, hy⟩ := Option.isSome_iff_exists.mp
            (List.getLast?_isSome.mpr (List.cons_ne_nil x xs))
          rw [hy]
          rfl

/-- Claim C1 (amended): in the chronological scan of checkReplicationLag,
among samples not skipped for v above v_now, t_past is the most recent time
whose value did NOT exceed v_now - L (so values at or below the target, and
NaN values, qualify), and the scan stops at the first non-skipped sample
whose value exceeds v_now - L; formally, t_past is the time of the last
sample of the tracked run, defaulting to the zero time. -/
theorem scanLsn_tracks_le_target (vCurr : Option ℚ) (l : ℚ) (samples : TimeSeries) :
    scanLsn vCurr (fsub vCurr (some l)) samples 0 =
      (((tracked vCurr (fsub vCurr (some l)) samples).getLast?).map Prod.fst).getD 0 :=
  scanLsn_eq_tracked vCurr (fsub vCurr (some l)) samples 0

/-- Claim C1 (counterexample): with the primary positions 100, 200, 300 at
times 1, 2, 3, v_now = 300 and L = 150, the scan assigns t_past = 1, whose
sample value 100 is strictly below v_now - L = 150: the tracking condition of
the claim (v at least v_now - L) did not hold there, and the scan did not
stop at that first sample even though its value is below v_now - L. -/
theorem scanLsn_ge_rule_refuted :
    scanLsn (some 300) (fsub (some 300) (some 150))
        [((1 : Int), some (100 : ℚ)), (2, some 200), (3, some 300)] 0 = 1
    ∧ ((100 : ℚ) < 300 - 150) := by
  constructor
  · decide
  · norm_num

/-- Every time the scan loop assigns, the assigned time comes from a sample
that was not skipped for exceeding vCurr. -/
theorem scanLsn_assigned (vCurr vTgt : Option ℚ) (samples : TimeSeries) :
    ∀ t0 : Time,
      scanLsn vCurr vTgt samples t0 = t0
      ∨ ∃ v, (scanLsn vCurr vTgt samples t0, v) ∈ samples ∧ fgt v vCurr = false := by
  induction samples with
  | nil => intro t0; left; rfl
  | cons s rest ih =>
    intro t0
    obtain ⟨t, v⟩ := s
    cases h1 : fgt v vCurr with
    | true =>
      have e : scanLsn vCurr vTgt ((t, v) :: rest) t0 = scanLsn vCurr vTgt rest t0 := by
        simp [scanLsn, h1]
      rw [e]
      rcases ih t0 with h | ⟨w, hw, hfw⟩
      · left; exact h
      · right; exact ⟨w, List.mem_cons_of_mem _ hw, hfw⟩
    | false =>
      cases h2 : fgt v vTgt with
      | true =>
        left; simp [scanLsn, h1, h2]
      | false =>
        have e : scanLsn vCurr vTgt ((t, v) :: rest) t0 = scanLsn vCurr vTgt rest t := by
          simp [scanLsn, h1, h2]
        rw [e]
        rcases ih t with h | ⟨w, hw, hfw⟩
        · right
          refine ⟨v, ?_, h1⟩
          rw [h]
          exact List.mem_cons_self _ _
        · right; exact ⟨w, List.mem_cons_of_mem _ hw, hfw⟩

/-- Claim C4 (amended): a sample whose value exceeds v_now is skipped and
never assigned as t_past: the scan either leaves t_past at its initial zero
time or returns the time of a sample whose value does not exceed vCurr in Go
float semantics (that is, the value is at most v_now, or it is NaN, which
compares false). -/
theorem scanLsn_skips_reset_samples (vCurr vTgt : Option ℚ) (samples : TimeSeries) :
    scanLsn vCurr vTgt samples 0 = 0
    ∨ ∃ v, (scanLsn vCurr vTgt samples 0, v) ∈ samples ∧ fgt v vCurr = false :=
  scanLsn_assigned vCurr vTgt samples 0

/-- Claim C4 (counterexample): a NaN sample is assigned as t_past, because
both Go comparisons are false on NaN; with v_now = 1000 and L = 100 the scan
over a NaN sample at time 1 and value 1000 at time 2 returns t_past = 1, the
time of the NaN sample, yet NaN is not at or below v_now (fle is false), so
t_past does not come from a sample with v at most v_now. -/
theorem scanLsn_nan_assigned_counterexample :
    scanLsn (some 1000) (fsub (some 1000) (some 100))
        [((1 : Int), (none : Option ℚ)), (2, some 1000)] 0 = 1
    ∧ ((1 : Int), (none : Option ℚ)) ∈
        [((1 : Int), (none : Option ℚ)), ((2 : Int), some (1000 : ℚ))]
    ∧ fle (none : Option ℚ) (some (1000 : ℚ)) = false := by
  refine ⟨by decide, ?_, rfl⟩
  exact List.mem_cons_self _ _

/-! ### The deployments audit -/

/-- Claim C9: iterating the deployment statuses from the highest index down
to 0, every stuck deployment overwrites the DeploymentStatus check value with
now - StartedAt; since SetValue is last-write-wins, the pass leaves the value
of the stuck deployment processed last, which is the first stuck entry in
list order (none when no deployment is stuck). -/
theorem deploymentsPass_stuck_value (now : Time) (statuses : List DeploymentStatus) :
    deploymentsPass now statuses =
      (statuses.find? (fun ds => decide (ds.state = DeploymentState.stuck))).map
        (fun ds => ((now - ds.startedAt : Int) : ℚ)) := by
  unfold deploymentsPass
  rw [List.foldl_reverse]
  induction statuses with
  | nil => rfl
  | cons a l ih =>
    rw [List.foldr_cons]
    by_cases h : a.state = DeploymentState.stuck
    · rw [List.find?_cons]
      simp [deploymentStep, h]
    · have e : ∀ acc, deploymentStep now acc a = acc := fun acc => by
        simp [deploymentStep, h]
      rw [e, ih, List.find?_cons]
      simp [h]

/-! ### checkReplicationLag: result shape, lower bound, epoch lag -/

/-- Unfolding of the recording component of the emitting path. -/
theorem emitLag_recorded (p : TimeSeries) (l : ℚ) (check : PgCheck) :
    (emitLag p l check).2 =
      decide (goTrunc check.threshold <
        (lastNotNull p).1 -
          scanLsn (lastNotNull p).2 (fsub (lastNotNull p).2 (some l)) p 0) := rfl

/-- Unfolding of the tags of the emitting path. -/
theorem emitLag_tags (p : TimeSeries) (l : ℚ) (check : PgCheck) :
    (emitLag p l check).1.tags =
      (if 0 < (lastNotNull p).1 -
            scanLsn (lastNotNull p).2 (fsub (lastNotNull p).2 (some l)) p 0
       then [((if scanLsn (lastNotNull p).2 (fsub (lastNotNull p).2 (some l)) p 0 = 0
               then ">" else ""),
             (lastNotNull p).1 -
               scanLsn (lastNotNull p).2 (fsub (lastNotNull p).2 (some l)) p 0)]
       else []) := rfl

/-- The emitting path never returns the empty cell. -/
theorem emitLag_ne_empty (p : TimeSeries) (l : ℚ) (check : PgCheck) :
    (emitLag p l check).1 ≠ emptyCell := by
  intro h
  have hv : (emitLag p l check).1.value = some l := rfl
  rw [h] at hv
  simp [emptyCell] at hv

/-- Claim C2: checkReplicationLag produces the empty cell and leaves the
check unrecorded exactly when the primary-position series is empty, the
latest byte-lag value is NaN, or the role is not replica; otherwise it
records the instance if and only if the computed time lag exceeds the
configured threshold (stated for the meaningful non-negative thresholds,
since the Go code truncates the float threshold toward zero before
comparing). -/
theorem checkReplicationLag_empty_iff (p lag : TimeSeries) (role : ClusterRole)
    (check : PgCheck) (hth : 0 ≤ check.threshold) :
    (checkReplicationLag p lag role check = (emptyCell, false)
      ↔ (p = [] ∨ lastVal lag = none ∨ role ≠ ClusterRole.replica))
    ∧ (p ≠ [] → role = ClusterRole.replica →
        ∀ l : ℚ, lastVal lag = some l →
          ((checkReplicationLag p lag role check).2 = true
            ↔ check.threshold < (lagTimeOf p l : ℚ))) := by
  constructor
  · constructor
    · intro h
      by_cases hp : p = []
      · exact Or.inl hp
      by_cases hr : role = ClusterRole.replica
      · cases hl : lastVal lag with
        | none => exact Or.inr (Or.inl rfl)
        | some l =>
          exfalso
          rw [checkReplicationLag, if_neg hp, if_neg (fun hne => hne hr), hl] at h
          exact emitLag_ne_empty p l check (congrArg Prod.fst h)
      · exact Or.inr (Or.inr hr)
    · intro h
      rcases h with hp | hl | hr
      · rw [checkReplicationLag, if_pos hp]
      · by_cases hp : p = []
        · rw [checkReplicationLag, if_pos hp]
        · by_cases hr : role = ClusterRole.replica
          · rw [checkReplicationLag, if_neg hp, if_neg (fun hne => hne hr), hl]
          · rw [checkReplicationLag, if_neg hp, if_pos hr]
      · by_cases hp : p = []
        · rw [checkReplicationLag, if_pos hp]
        · rw [checkReplicationLag, if_neg hp, if_pos hr]
  · intro hp hr l hl
    rw [checkReplicationLag, if_neg hp, if_neg (fun hne => hne hr), hl,
      emitLag_recorded, decide_eq_true_iff]
    rw [show (lastNotNull p).1 -
          scanLsn (lastNotNull p).2 (fsub (lastNotNull p).2 (some l)) p 0
        = lagTimeOf p l from rfl]
    rw [goTrunc, if_neg (not_lt.mpr hth)]
    exact Int.floor_lt

/-- Claim C10: when no sample of the primary-position history qualifies (the
tracked run is empty), t_past stays at the zero timestamp, so the time lag is
the full offset of t_now from the epoch, and that epoch-sized duration is
what is compared against the threshold: the instance is recorded exactly when
t_now itself exceeds the (non-negative) threshold. -/
theorem checkReplicationLag_epoch_lag (p lag : TimeSeries) (check : PgCheck)
    (hp : p ≠ []) (l : ℚ) (hl : lastVal lag = some l) (hth : 0 ≤ check.threshold)
    (htr : tracked (lastNotNull p).2 (fsub (lastNotNull p).2 (some l)) p = []) :
    lagTimeOf p l = (lastNotNull p).1
    ∧ ((checkReplicationLag p lag ClusterRole.replica check).2 = true
        ↔ check.threshold < ((lastNotNull p).1 : ℚ)) := by
  have hscan : scanLsn (lastNotNull p).2 (fsub (lastNotNull p).2 (some l)) p 0 = 0 := by
    rw [scanLsn_eq_tracked, htr]
    rfl
  have h1 : lagTimeOf p l = (lastNotNull p).1 := by
    unfold lagTimeOf
    rw [hscan, sub_zero]
  refine ⟨h1, ?_⟩
  rw [checkReplicationLag, if_neg hp, if_neg (fun hne => hne rfl), hl,
    emitLag_recorded, decide_eq_true_iff, hscan, sub_zero,
    goTrunc, if_neg (not_lt.mpr hth)]
  exact Int.floor_lt

/-- Claim C5 (amended): on the emitting path the time tag is rendered only
when the time lag is positive, and it carries the greater-than qualifier
exactly when t_past is the zero timestamp: when no sample of the retained
history qualified every rendered tag is prefixed, while when the last
qualifying sample has a nonzero time no rendered tag is prefixed.  (The
qualifier therefore does not distinguish an empty tracked run from a
qualifying sample whose time is exactly zero; see the counterexample.) -/
theorem checkReplicationLag_gt_qualifier (p lag : TimeSeries) (check : PgCheck)
    (hp : p ≠ []) (l : ℚ) (hl : lastVal lag = some l) :
    (tracked (lastNotNull p).2 (fsub (lastNotNull p).2 (some l)) p = [] →
      ∀ (g : String) (d : Int),
        (g, d) ∈ (checkReplicationLag p lag ClusterRole.replica check).1.tags →
          g = ">")
    ∧ (∀ (t : Time) (v : Option ℚ),
        (tracked (lastNotNull p).2 (fsub (lastNotNull p).2 (some l)) p).getLast?
            = some (t, v) →
        t ≠ 0 →
        ∀ (g : String) (d : Int),
          (g, d) ∈ (checkReplicationLag p lag ClusterRole.replica check).1.tags →
            g = "") := by
  have htags : (checkReplicationLag p lag ClusterRole.replica check).1.tags
      = (emitLag p l check).1.tags := by
    rw [checkReplicationLag, if_neg hp, if_neg (fun hne => hne rfl), hl]
  constructor
  · intro htr g d hmem
    have hscan : scanLsn (lastNotNull p).2 (fsub (lastNotNull p).2 (some l)) p 0 = 0 := by
      rw [scanLsn_eq_tracked, htr]
      rfl
    rw [htags, emitLag_tags, hscan] at hmem
    by_cases hpos : 0 < (lastNotNull p).1 - 0
    · rw [if_pos hpos] at hmem
      rcases List.mem_singleton.mp hmem with h
      simpa using congrArg Prod.fst h
    · rw [if_neg hpos] at hmem
      simp at hmem
  · intro t v hlast ht g d hmem
    have hscan : scanLsn (lastNotNull p).2 (fsub (lastNotNull p).2 (some l)) p 0 = t := by
      rw [scanLsn_eq_tracked, hlast]
      rfl
    rw [htags, emitLag_tags, hscan, if_neg ht] at hmem
    by_cases hpos : 0 < (lastNotNull p).1 - t
    · rw [if_pos hpos] at hmem
      rcases List.mem_singleton.mp hmem with h
      simpa using congrArg Prod.fst h
    · rw [if_neg hpos] at hmem
      simp at hmem

/-- Claim C5 (counterexample): a qualifying sample whose time is the zero
timestamp is indistinguishable from an empty tracked run: with primary
positions 10 at time 0 and 20 at time 5, byte lag 5 (target 15), the sample
at time 0 qualifies (10 is at most 15), yet the rendered tag still carries
the greater-than qualifier, refuting that a qualifying sample always removes
the qualifier. -/
theorem checkReplicationLag_zero_time_counterexample :
    (checkReplicationLag [((0 : Int), some (10 : ℚ)), (5, some 20)]
        [((5 : Int), some (5 : ℚ))] ClusterRole.replica ⟨3⟩).1.tags = [(">", 5)]
    ∧ tracked (lastNotNull [((0 : Int), some (10 : ℚ)), (5, some 20)]).2
        (fsub (lastNotNull [((0 : Int), some (10 : ℚ)), (5, some 20)]).2 (some 5))
        [((0 : Int), some (10 : ℚ)), (5, some 20)]
        = [((0 : Int), some (10 : ℚ))] := by
  exact ⟨by decide, by decide⟩

/-! ### pgReplicationLag -/

/-- Every defined value of the byte-lag series is non-negative. -/
theorem pgReplicationLag_mem_nonneg (a : TimeSeries) :
    ∀ (b : TimeSeries) (s : Sample), s ∈ pgReplicationLag a b →
      ∀ v : ℚ, s.2 = some v → 0 ≤ v := by
  induction a with
  | nil =>
    intro b s hs
    simp [pgReplicationLag, aggregate2] at hs
  | cons x xs ih =>
    intro b s hs
    cases b with
    | nil => simp [pgReplicationLag, aggregate2] at hs
    | cons y ys =>
      rw [pgReplicationLag, aggregate2, List.zipWith_cons_cons] at hs
      rcases List.mem_cons.mp hs with h | h
      · intro v hv
        rw [h] at hv
        simp only at hv
        cases hx : x.2 with
        | none => rw [hx] at hv; simp [lagPointwise, fsub, fgt] at hv
        | some pv =>
          cases hy : y.2 with
          | none =>
            rw [hx, hy] at hv
            simp [lagPointwise, fsub, fgt] at hv
          | some rv =>
            rw [hx, hy] at hv
            simp only [lagPointwise, fsub, fgt] at hv
            by_cases hneg : pv - rv < 0
            · rw [if_pos (by simpa using hneg)] at hv
              rw [← Option.some_inj.mp hv]
            · rw [if_neg (by simpa using hneg)] at hv
              rw [← Option.some_inj.mp hv]
              exact le_of_not_lt (by simpa using hneg)
      · exact ih ys s h

/-- Pointwise characterization of aggregate2: the sample at index i combines
the input samples at index i, keeping the time of the first series. -/
theorem aggregate2_get (f : Option ℚ → Option ℚ → Option ℚ) :
    ∀ (a b : TimeSeries) (i : ℕ) (ha : i < a.length) (hb : i < b.length)
      (hl : i < (aggregate2 f a b).length),
      (aggregate2 f a b).get ⟨i, hl⟩
        = ((a.get ⟨i, ha⟩).1, f (a.get ⟨i, ha⟩).2 (b.get ⟨i, hb⟩).2) := by
  intro a
  induction a with
  | nil =>
    intro b i ha
    exact absurd ha (by simp)
  | cons x xs ih =>
    intro b i ha hb hl
    cases b with
    | nil => exact absurd hb (by simp)
    | cons y ys =>
      cases i with
      | zero => rfl
      | succ n =>
        exact ih ys n
          (by simp only [List.length_cons] at ha; omega)
          (by simp only [List.length_cons] at hb; omega)
          (by
            simp only [aggregate2, List.zipWith_cons_cons, List.length_cons] at hl ⊢
            omega)

/-- Claim C3: at every instant where both input series are numeric, the
byte-lag series of pgReplicationLag equals primary minus replay when that
difference is non-negative and 0 when it is negative; and at every instant
the byte lag is never negative. -/
theorem pgReplicationLag_pointwise (a b : TimeSeries) :
    (∀ (i : ℕ) (ha : i < a.length) (hb : i < b.length)
      (hl : i < (pgReplicationLag a b).length),
      ∀ pv rv : ℚ,
        (a.get ⟨i, ha⟩).2 = some pv →
        (b.get ⟨i, hb⟩).2 = some rv →
        ((pgReplicationLag a b).get ⟨i, hl⟩).2
          = some (if pv - rv < 0 then 0 else pv - rv))
    ∧ (∀ s ∈ pgReplicationLag a b, ∀ v : ℚ, s.2 = some v → 0 ≤ v) := by
  constructor
  · intro i ha hb hl pv rv hpv hrv
    have hz := aggregate2_get lagPointwise a b i ha hb hl
    show ((aggregate2 lagPointwise a b).get ⟨i, hl⟩).2 = _
    rw [hz]
    show lagPointwise (a.get ⟨i, ha⟩).2 (b.get ⟨i, hb⟩).2 = _
    rw [hpv, hrv]
    simp only [lagPointwise, fsub, fgt]
    by_cases hneg : pv - rv < 0
    · rw [if_pos (by simpa using hneg), if_pos hneg]
    · rw [if_neg (by simpa using hneg), if_neg hneg]
  · exact pgReplicationLag_mem_nonneg a b

/-! ### pgConnections: canonical buckets -/

/-- Adding a series to a bucket appends it to that bucket. -/
theorem bucketGet_add_self (m : Buckets) (s : String) (v : TimeSeries) :
    bucketGet (bucketAdd m s v) s = bucketGet m s ++ [v] := by
  induction m with
  | nil => simp [bucketAdd, bucketGet]
  | cons kv rest ih =>
    obtain ⟨k, vs⟩ := kv
    by_cases h : k = s
    · subst h
      simp [bucketAdd, bucketGet]
    · simp [bucketAdd, bucketGet, h, ih]

/-- Adding a series to one bucket leaves every other bucket unchanged. -/
theorem bucketGet_add_ne (m : Buckets) (s sAdd : String) (v : TimeSeries)
    (h : sAdd ≠ s) : bucketGet (bucketAdd m sAdd v) s = bucketGet m s := by
  induction m with
  | nil => simp [bucketAdd, bucketGet, h]
  | cons kv rest ih =>
    obtain ⟨k, vs⟩ := kv
    by_cases hk : k = sAdd
    · subst hk
      simp [bucketAdd, bucketGet, h]
    · simp [bucketAdd, bucketGet, hk, ih]

/-- Replacing a bucket stores exactly the new aggregate there. -/
theorem bucketGet_set_self (m : Buckets) (s : String) (vs : List TimeSeries) :
    bucketGet (bucketSet m s vs) s = vs := by
  induction m with
  | nil => simp [bucketSet, bucketGet]
  | cons kv rest ih =>
    obtain ⟨k, ws⟩ := kv
    by_cases h : k = s
    · subst h
      simp [bucketSet, bucketGet]
    · simp [bucketSet, bucketGet, h, ih]

/-- The bucketing loop: after processing all connections starting from any
accumulator, each bucket holds its old content followed by exactly the series
of the connections whose canonical state is that bucket, in order. -/
theorem buildBuckets_get_general (conns : List (ConnKey × TimeSeries)) (s : String) :
    ∀ m : Buckets,
      bucketGet (conns.foldl (fun m kv => bucketAdd m (canonicalState kv.1) kv.2) m) s
        = bucketGet m s
            ++ (conns.filter (fun kv => decide (canonicalState kv.1 = s))).map Prod.snd := by
  induction conns with
  | nil => intro m; simp
  | cons kv rest ih =>
    intro m
    rw [List.foldl_cons, ih, List.filter_cons]
    by_cases h : canonicalState kv.1 = s
    · rw [h, bucketGet_add_self]
      simp [h]
    · rw [bucketGet_add_ne m s _ _ h]
      simp [h]

/-- Claim C6: the loop of pgConnections maps every connection key to exactly
one canonical bucket, the pair (active, Lock) to the locked bucket and every
other key to its raw state, and the chart series of a bucket is the NanSum of
exactly the series whose canonical state is that bucket; hence no connection
entry contributes to both the active and the locked bucket. -/
theorem pgConnections_canonical_buckets (conns : List (ConnKey × TimeSeries)) (s : String) :
    bucketGet (buildBuckets conns) s
        = (conns.filter (fun kv => decide (canonicalState kv.1 = s))).map Prod.snd
    ∧ nanSumList (bucketGet (buildBuckets conns) s)
        = nanSumList
            ((conns.filter (fun kv => decide (canonicalState kv.1 = s))).map Prod.snd)
    ∧ (∀ kv : ConnKey × TimeSeries,
        ¬(kv ∈ conns.filter (fun kv => decide (canonicalState kv.1 = "active"))
          ∧ kv ∈ conns.filter
              (fun kv => decide (canonicalState kv.1 = pgActiveLockedState)))) := by
  have hchar : bucketGet (buildBuckets conns) s
      = (conns.filter (fun kv => decide (canonicalState kv.1 = s))).map Prod.snd := by
    have h := buildBuckets_get_general conns s []
    simpa [buildBuckets, bucketGet] using h
  refine ⟨hchar, by rw [hchar], ?_⟩
  rintro kv ⟨h1, h2⟩
  have e1 : canonicalState kv.1 = "active" := by
    simpa using List.of_mem_filter h1
  have e2 : canonicalState kv.1 = pgActiveLockedState := by
    simpa using List.of_mem_filter h2
  rw [e1] at e2
  exact absurd e2 (by decide)

/-! ### pgConnections: saturation check and reserved bucket -/

/-- Unfolding of the recording decision of pgConnections. -/
theorem pgConnections_recorded_eq (inst : PgInstance) (check : PgCheck) :
    (pgConnections inst check).recorded =
      (match lastVal (getSetting inst "max_connections") with
       | some mx =>
           decide (0 < mx) && decide (0 < (pgConnections inst check).total) &&
             decide (check.threshold < (pgConnections inst check).total / mx * 100)
       | none => false) := rfl

/-- Claim C7 (amended): the saturation check is skipped (nothing recorded)
unless the last max_connections value is numeric and positive and the
connection total is positive; when both are positive, the instance is
recorded if and only if total divided by max times 100 exceeds the check
threshold. -/
theorem pgConnections_saturation_guard (inst : PgInstance) (check : PgCheck) :
    ((¬ ∃ mx : ℚ, lastVal (getSetting inst "max_connections") = some mx
          ∧ 0 < mx ∧ 0 < (pgConnections inst check).total) →
        (pgConnections inst check).recorded = false)
    ∧ (∀ mx : ℚ, lastVal (getSetting inst "max_connections") = some mx →
        0 < mx → 0 < (pgConnections inst check).total →
        ((pgConnections inst check).recorded = true
          ↔ check.threshold < (pgConnections inst check).total / mx * 100)) := by
  constructor
  · intro hno
    cases hmx : lastVal (getSetting inst "max_connections") with
    | none => simp only [pgConnections_recorded_eq, hmx]
    | some mx =>
      simp only [pgConnections_recorded_eq, hmx]
      by_cases h1 : 0 < mx
      · by_cases h2 : 0 < (pgConnections inst check).total
        · exact absurd ⟨mx, hmx, h1, h2⟩ hno
        · simp [h2]
      · simp [h1]
  · intro mx hmx h1 h2
    simp only [pgConnections_recorded_eq, hmx]
    simp [h1, h2]

/-- Claim C7 (counterexample): with a connection total of -10 and a
max_connections value of -5, the max value is present and nonzero and the
total is nonzero and numeric, and total/max*100 = 200 exceeds the threshold
90, yet the code skips the check (it requires both to be positive), so the
instance is not recorded — refuting that the check is evaluated in every
case outside zero/absent max and zero/NaN total. -/
theorem pgConnections_negative_counterexample :
    (pgConnections pgInstanceNegative ⟨90⟩).recorded = false
    ∧ lastVal (getSetting pgInstanceNegative "max_connections") = some (-5)
    ∧ (pgConnections pgInstanceNegative ⟨90⟩).total = -10
    ∧ ((90 : ℚ) < (-10) / (-5) * 100) := by
  refine ⟨by decide, by decide, by decide, by decide⟩

/-- Claim C8 (amended): the reserved bucket of pgConnections always exists
and holds exactly the two reserved-connections setting series (an absent
setting contributing the nil series), NanSummed for the chart; when both
settings are absent the bucket is the empty series (no data at any instant),
not a zero-valued series. -/
theorem pgConnections_reserved_bucket (inst : PgInstance) (check : PgCheck) :
    bucketGet (pgConnections inst check).buckets "reserved"
      = [getSetting inst "superuser_reserved_connections",
         getSetting inst "rds.rds_superuser_reserved_connections"]
    ∧ (getSetting inst "superuser_reserved_connections" = [] →
        getSetting inst "rds.rds_superuser_reserved_connections" = [] →
        nanSumList (bucketGet (pgConnections inst check).buckets "reserved") = []) := by
  have hb : (pgConnections inst check).buckets
      = bucketAdd
          (bucketAdd (bucketSet (buildBuckets inst.connections) "reserved" [])
            "reserved" (getSetting inst "superuser_reserved_connections"))
          "reserved" (getSetting inst "rds.rds_superuser_reserved_connections") := rfl
  have h1 : bucketGet (pgConnections inst check).buckets "reserved"
      = [getSetting inst "superuser_reserved_connections",
         getSetting inst "rds.rds_superuser_reserved_connections"] := by
    rw [hb, bucketGet_add_self, bucketGet_add_self, bucketGet_set_self]
    rfl
  refine ⟨h1, ?_⟩
  intro e1 e2
  rw [h1, e1, e2]
  rfl

/-- Claim C8 (counterexample): with no reserved-connections setting present,
the reserved bucket renders as the empty series: it has no value at any
instant (its last value is NaN, not 0), refuting that the bucket value is
zero when no setting is present. -/
theorem pgConnections_reserved_nan_counterexample :
    nanSumList (bucketGet (pgConnections pgInstanceNoReserved ⟨90⟩).buckets "reserved") = []
    ∧ lastVal
        (nanSumList (bucketGet (pgConnections pgInstanceNoReserved ⟨90⟩).buckets "reserved"))
        ≠ some 0 := by
  exact ⟨by decide, by decide⟩

/-! ### Witnesses: the theorems above applied at concrete inputs -/

/-- Witness for claim C2: at primary positions 1 and 5 (times 0 and 10),
byte lag 2 and threshold 3, the emit path is taken and the instance is
recorded, since the time lag 10 exceeds 3. -/
theorem checkReplicationLag_empty_iff_witness :
    (checkReplicationLag [((0 : Int), some (1 : ℚ)), (10, some 5)]
        [((10 : Int), some (2 : ℚ))] ClusterRole.replica ⟨3⟩).2 = true := by
  have h := (checkReplicationLag_empty_iff [((0 : Int), some (1 : ℚ)), (10, some 5)]
      [((10 : Int), some (2 : ℚ))] ClusterRole.replica ⟨3⟩ (by decide)).2
      (by decide) rfl 2 (by decide)
  exact h.mpr (by decide)

/-- Witness for claim C10: a single primary position 50 at time 100 with
byte lag 10 leaves the tracked run empty, so the time lag is the full epoch
offset 100 and the instance is recorded against the threshold 30. -/
theorem checkReplicationLag_epoch_lag_witness :
    lagTimeOf [((100 : Int), some (50 : ℚ))] 10
        = (lastNotNull [((100 : Int), some (50 : ℚ))]).1
    ∧ ((checkReplicationLag [((100 : Int), some (50 : ℚ))]
          [((100 : Int), some (10 : ℚ))] ClusterRole.replica ⟨30⟩).2 = true
        ↔ (30 : ℚ) < ((lastNotNull [((100 : Int), some (50 : ℚ))]).1 : ℚ)) :=
  checkReplicationLag_epoch_lag [((100 : Int), some (50 : ℚ))]
    [((100 : Int), some (10 : ℚ))] ⟨30⟩ (by decide) 10 (by decide) (by decide) (by decide)

/-- Witness for claim C5: with primary positions 1 and 5 at times 10 and 20
and byte lag 1, the sample at time 10 qualifies, so the rendered tag carries
no greater-than qualifier. -/
theorem checkReplicationLag_gt_qualifier_witness :
    (checkReplicationLag [((10 : Int), some (1 : ℚ)), (20, some 5)]
        [((20 : Int), some (1 : ℚ))] ClusterRole.replica ⟨3⟩).1.tags = [("", 10)]
    ∧ ("" : String) = "" := by
  refine ⟨by decide, ?_⟩
  exact (checkReplicationLag_gt_qualifier [((10 : Int), some (1 : ℚ)), (20, some 5)]
      [((20 : Int), some (1 : ℚ))] ⟨3⟩ (by decide) 1 (by decide)).2
      10 (some 1) (by decide) (by decide) "" 10 (by decide)

/-- Witness for claim C3: at primary 5 and replay 2, the byte lag is 3, the
non-negative difference, and is itself non-negative. -/
theorem pgReplicationLag_pointwise_witness :
    ((pgReplicationLag [((0 : Int), some (5 : ℚ))] [((0 : Int), some (2 : ℚ))]).get
        ⟨0, by decide⟩).2 = some (if (5 : ℚ) - 2 < 0 then 0 else 5 - 2)
    ∧ (0 : ℚ) ≤ 3 := by
  constructor
  · exact (pgReplicationLag_pointwise [((0 : Int), some (5 : ℚ))]
      [((0 : Int), some (2 : ℚ))]).1 0 (by decide) (by decide) (by decide) 5 2 rfl rfl
  · exact (pgReplicationLag_pointwise [((0 : Int), some (5 : ℚ))]
      [((0 : Int), some (2 : ℚ))]).2 ((0 : Int), some (3 : ℚ)) (by decide) 3 rfl

/-- Witness for claim C6: the locked bucket of the fixture holds exactly the
series of the (active, Lock) connection, and that entry is not in both the
active and the locked filter. -/
theorem pgConnections_canonical_buckets_witness :
    bucketGet (buildBuckets pgConnsFixture) pgActiveLockedState
        = (pgConnsFixture.filter
            (fun kv => decide (canonicalState kv.1 = pgActiveLockedState))).map Prod.snd
    ∧ ¬((⟨"active", "Lock"⟩, [((0 : Int), some (2 : ℚ))])
          ∈ pgConnsFixture.filter (fun kv => decide (canonicalState kv.1 = "active"))
        ∧ (⟨"active", "Lock"⟩, [((0 : Int), some (2 : ℚ))])
          ∈ pgConnsFixture.filter
              (fun kv => decide (canonicalState kv.1 = pgActiveLockedState))) :=
  ⟨(pgConnections_canonical_buckets pgConnsFixture pgActiveLockedState).1,
   (pgConnections_canonical_buckets pgConnsFixture pgActiveLockedState).2.2
     (⟨"active", "Lock"⟩, [((0 : Int), some (2 : ℚ))])⟩

/-- Witness for claim C7: connection total 95 against max_connections 100
with threshold 90 records the instance (the spec saturation scenario). -/
theorem pgConnections_saturation_guard_witness :
    (pgConnections pgInstanceSaturated ⟨90⟩).recorded = true := by
  have h := (pgConnections_saturation_guard pgInstanceSaturated ⟨90⟩).2
      100 (by decide) (by decide) (by decide)
  exact h.mpr (by decide)

/-- Witness for claim C8: with no reserved setting present, the reserved
bucket holds two nil series and its chart series is empty. -/
theorem pgConnections_reserved_bucket_witness :
    bucketGet (pgConnections pgInstanceNoReserved ⟨90⟩).buckets "reserved"
      = [getSetting pgInstanceNoReserved "superuser_reserved_connections",
         getSetting pgInstanceNoReserved "rds.rds_superuser_reserved_connections"]
    ∧ nanSumList
        (bucketGet (pgConnections pgInstanceNoReserved ⟨90⟩).buckets "reserved") = [] :=
  ⟨(pgConnections_reserved_bucket pgInstanceNoReserved ⟨90⟩).1,
   (pgConnections_reserved_bucket pgInstanceNoReserved ⟨90⟩).2 (by decide) (by decide)⟩

end Coroot
